import Mathlib

/-
Verification of the XyPCLI concurrent dependency installer
(module file src/unnamed/part_003 of the repository).

The development embeds, as executable Lean definitions:
  * the argv construction of installPackageParallel and
    installSingleDependency (including the nquickdev override);
  * the stderr diagnostic extraction of installPackageParallel;
  * the semaphore / npm-mutex scheduling discipline of InstallPackages
    and installDependencies, as a small-step transition system;
  * the result-collection loop of installDependencies (strict and
    non-strict modes) and the final report;
  * the backend auto-resolution of installDependencies (bun lookup,
    installBun auto-provision, npm fallback) and the package.json
    guards of the InstallPackage / InstallPackages entry points.
-/

namespace XyPCLI

/-! ### Go string primitives, on lists of characters

Embeddings of the `strings` package functions used by the installer:
`strings.Split(s, "\n")`, `strings.TrimSpace`, `strings.Contains`,
`strings.ToLower` (the inputs of interest are ASCII; `ToLower` is
embedded as the per-character ASCII lowercasing). -/

/-- Characters treated as space by Go `unicode.IsSpace` in the Latin-1
range: tab, newline, vertical tab, form feed, carriage return, space,
next line, no-break space. -/
def isGoSpace (c : Char) : Bool :=
  c.toNat = 9 || c.toNat = 10 || c.toNat = 11 || c.toNat = 12 ||
  c.toNat = 13 || c.toNat = 32 || c.toNat = 133 || c.toNat = 160

/-- Split a character list at each newline, as Go
`strings.Split(s, "\n")` does: `"a\nb"` gives `["a", "b"]` and the
empty string gives `[""]`. -/
def splitLinesCh : List Char → List (List Char)
  | [] => [[]]
  | c :: t =>
    if c = '\n' then [] :: splitLinesCh t
    else
      match splitLinesCh t with
      | [] => [[c]]
      | l :: ls => (c :: l) :: ls

/-- Go `strings.Split(s, "\n")`. -/
def goSplitNewline (s : String) : List String :=
  (splitLinesCh s.toList).map String.mk

/-- Go `strings.TrimSpace`: strip leading and trailing space characters. -/
def goTrimSpace (s : String) : String :=
  String.mk (((s.toList.dropWhile isGoSpace).reverse.dropWhile isGoSpace).reverse)

/-- Whether `needle` occurs at the start of the second list. -/
def startsWithChars : List Char → List Char → Bool
  | _, [] => true
  | [], _ :: _ => false
  | c :: cs, d :: ds => decide (c = d) && startsWithChars cs ds

/-- Whether `needle` occurs contiguously anywhere in the second list. -/
def containsChars (needle : List Char) : List Char → Bool
  | [] => needle.isEmpty
  | c :: t => startsWithChars (c :: t) needle || containsChars needle t

/-- Go `strings.Contains(s, sub)`. -/
def goContains (s sub : String) : Bool :=
  containsChars sub.toList s.toList

/-- Go `strings.ToLower` restricted to ASCII lowercasing. -/
def goToLower (s : String) : String :=
  String.mk (s.toList.map Char.toLower)

/-! ### Command construction

`Cmd` records one `exec.Command(tool, args...)` invocation. -/

/-- One subprocess invocation: executable name and argument vector. -/
structure Cmd where
  tool : String
  args : List String
deriving DecidableEq, Repr

/-- Argv construction of `installPackageParallel`
(src/unnamed/part_003, lines 265-276): the nquickdev override routes to
npm under bun mode; otherwise bun mode runs `bun add`, npm mode runs
`npm install`. No dev-dependency flag exists on this path. -/
def parallelInstallCmd (useBun : Bool) (packageName : String) : Cmd :=
  if useBun = true ∧ packageName = "nquickdev" then ⟨"npm", ["install", packageName]⟩
  else if useBun = true then ⟨"bun", ["add", packageName]⟩
  else ⟨"npm", ["install", packageName]⟩

/-- Argv construction of `installSingleDependency`
(src/unnamed/part_003, lines 770-791): same override, with a dev flag
(`bun add -d` / `npm install --save-dev`) when `isDev` is set. -/
def singleInstallCmd (useBun isDev : Bool) (dep : String) : Cmd :=
  if useBun = true ∧ dep = "nquickdev" then
    if isDev = true then ⟨"npm", ["install", "--save-dev", dep]⟩
    else ⟨"npm", ["install", dep]⟩
  else if useBun = true then
    if isDev = true then ⟨"bun", ["add", "-d", dep]⟩
    else ⟨"bun", ["add", dep]⟩
  else
    if isDev = true then ⟨"npm", ["install", "--save-dev", dep]⟩
    else ⟨"npm", ["install", dep]⟩

/-- The tasks launched by `installDependencies`
(src/unnamed/part_003, lines 688-716): one task per regular dependency
followed by one per dev dependency, each recorded as
(package name, isDev, command); every task builds its command through
`installPackageParallel`, which takes no dev flag. -/
def batchTasks (useBun : Bool) (deps devDeps : List String) :
    List (String × Bool × Cmd) :=
  deps.map (fun d => (d, false, parallelInstallCmd useBun d)) ++
    devDeps.map (fun d => (d, true, parallelInstallCmd useBun d))

/-! ### Diagnostic extraction from captured stderr

Embedding of the error-display logic of `installPackageParallel`
(src/unnamed/part_003, lines 304-346). -/

/-- The case-sensitive error markers scanned for
(src/unnamed/part_003, lines 315-320). -/
def errorMarkers : List String :=
  ["ERR!", "error", "404", "ENOENT", "ENOTEMPTY", "code"]

/-- A line contains at least one error marker. -/
def lineMatchesMarker (line : String) : Bool :=
  errorMarkers.any (fun m => goContains line m)

/-- The lowercased line contains "warn"
(src/unnamed/part_003, line 321). -/
def lineMentionsWarn (line : String) : Bool :=
  goContains (goToLower line) "warn"

/-- The first collection loop (src/unnamed/part_003, lines 310-325):
trim each line and keep it when it is non-empty, matches a marker, and
does not mention a warning; retained lines keep their original order. -/
def collectMarkerLines : List String → List String
  | [] => []
  | raw :: rest =>
    let line := goTrimSpace raw
    if line ≠ "" ∧ lineMatchesMarker line = true ∧ lineMentionsWarn line = false then
      line :: collectMarkerLines rest
    else collectMarkerLines rest

/-- The fallback loop (src/unnamed/part_003, lines 329-336): collect
trimmed non-empty lines while fewer than `k` have been collected,
continuing to scan (but not collect) afterwards. -/
def collectFirstLines (k : Nat) : List String → List String
  | [] => []
  | raw :: rest =>
    let line := goTrimSpace raw
    if line ≠ "" ∧ 0 < k then line :: collectFirstLines (k - 1) rest
    else collectFirstLines k rest

/-- The complete diagnostic extraction of `installPackageParallel`
(src/unnamed/part_003, lines 304-346): marker lines, else the first 3
non-empty lines, truncated to 5 lines. -/
def extractErrorLines (errOutput : String) : List String :=
  let lines := goSplitNewline errOutput
  let errorLines := collectMarkerLines lines
  let errorLines :=
    if errorLines.length = 0 ∧ errOutput ≠ "" then collectFirstLines 3 lines
    else errorLines
  if errorLines.length > 5 then errorLines.take 5 else errorLines

/-- The trimmed non-empty lines of a stderr capture, in order. -/
def trimmedNonEmpty (errOutput : String) : List String :=
  ((goSplitNewline errOutput).map goTrimSpace).filter (fun l => decide (l ≠ ""))

/-- The diagnostic as the specification describes it: every trimmed
non-empty line matching a marker whose lowercased form does not contain
"warn", in original order; if none match, the first 3 trimmed non-empty
lines; truncated to at most 5 lines. -/
def specDiagnostic (errOutput : String) : List String :=
  let matched := (trimmedNonEmpty errOutput).filter
    (fun l => lineMatchesMarker l && !lineMentionsWarn l)
  (if matched = [] then (trimmedNonEmpty errOutput).take 3 else matched).take 5

/-! ### The scheduler transition system

Embedding of the goroutine / semaphore / npm-mutex discipline shared by
`InstallPackages` (src/unnamed/part_003, lines 216-234) and
`installDependencies` (lines 678-716).  Each launched task passes
through four phases:

  * `idle`    : goroutine spawned, semaphore not yet acquired;
  * `hasSem`  : holds one of the `min 4 N` semaphore slots
                (`semaphore <- struct{}{}`, capacity set at lines
                216-220 / 678-682);
  * `running` : subprocess in flight inside `installPackageParallel`;
                when the batch backend is npm (`useBun = false`) the
                process-wide `npmMutex` is locked for the whole
                subprocess run (lines 287-290), so a task may enter
                `running` only while no other task is `running`;
                when `useBun = true` no lock is taken at all, even for
                a task routed to npm by the nquickdev override;
  * `done ok` : subprocess finished with outcome `ok`; the mutex (when
                held) and the semaphore slot are released by `defer`
                regardless of the outcome (lines 229, 289, 693, 709).
-/

/-- Phase of one installation task. -/
inductive Phase where
  | idle : Phase
  | hasSem : Phase
  | running : Phase
  | done (ok : Bool) : Phase
deriving DecidableEq, Repr

/-- A phase holding a semaphore slot. -/
def isActive : Phase → Bool
  | .hasSem => true
  | .running => true
  | _ => false

/-- A phase whose subprocess is in flight. -/
def isRunning : Phase → Bool
  | .running => true
  | _ => false

/-- Number of tasks currently holding a semaphore slot. -/
def permitCount (ps : List Phase) : Nat := ps.countP isActive

/-- Number of tasks whose subprocess is currently in flight. -/
def runningCount (ps : List Phase) : Nat := ps.countP isRunning

/-- The concurrency cap: `maxConcurrent := 4`, lowered to the package
count when smaller (src/unnamed/part_003, lines 217-220 and 679-682). -/
def maxConcurrent (n : Nat) : Nat := min 4 n

/-- One scheduling step of a batch of `n` tasks with backend flag
`useBun`. -/
inductive SchedStep (useBun : Bool) (n : Nat) : List Phase → List Phase → Prop
  | acquire (ps : List Phase) (i : Nat) (h : ps.get? i = some .idle)
      (hsem : permitCount ps < maxConcurrent n) :
      SchedStep useBun n ps (ps.set i .hasSem)
  | start (ps : List Phase) (i : Nat) (h : ps.get? i = some .hasSem)
      (hmx : useBun = true ∨ runningCount ps = 0) :
      SchedStep useBun n ps (ps.set i .running)
  | finish (ps : List Phase) (i : Nat) (ok : Bool) (h : ps.get? i = some .running) :
      SchedStep useBun n ps (ps.set i (.done ok))

/-- The phase vectors reachable by a batch over `pkgs`: all tasks start
idle and evolve by scheduling steps. -/
def BatchReachable (useBun : Bool) (pkgs : List String) (ps : List Phase) : Prop :=
  Relation.ReflTransGen (SchedStep useBun pkgs.length)
    (List.replicate pkgs.length .idle) ps

/-! ### Result collection and the final report

Embedding of the result-collection loop of `installDependencies`
(src/unnamed/part_003, lines 718-737) and its summary (lines 739-754). -/

/-- One value sent on the `results` channel (src/unnamed/part_003,
lines 671-676). -/
structure InstallResult where
  packageName : String
  success : Bool
  isDev : Bool
deriving DecidableEq, Repr

/-- The dev tag appended to a failed package name
(src/unnamed/part_003, lines 723-726). -/
def devLabel (isDev : Bool) : String := if isDev = true then " (dev)" else ""

/-- Outcome of the collection loop: either the loop ran to completion
with the accumulated failed list, or strict mode called `os.Exit`. -/
inductive CollectOutcome where
  | report (failed : List String) : CollectOutcome
  | exit (code : Nat) (failedPackage : String) : CollectOutcome
deriving DecidableEq, Repr

/-- The collection loop over the results in observation order
(src/unnamed/part_003, lines 719-737): failures are appended to
`failedDeps` tagged with their dev label; in strict mode the first
failure prints its package identity and calls `os.Exit(1)`. -/
def collectResults (strict : Bool) : List InstallResult → CollectOutcome
  | [] => .report []
  | r :: rs =>
    if r.success = true then collectResults strict rs
    else if strict = true then .exit 1 (r.packageName ++ devLabel r.isDev)
    else
      match collectResults strict rs with
      | .report failed => .report ((r.packageName ++ devLabel r.isDev) :: failed)
      | .exit c p => .exit c p

/-- How many results the collection loop receives from the channel
before returning or exiting. -/
def consumedResults (strict : Bool) : List InstallResult → Nat
  | [] => 0
  | r :: rs =>
    if strict = true ∧ r.success = false then 1
    else 1 + consumedResults strict rs

/-- The installation report: total package count, number succeeded, and
the failed packages (tagged) in observation order. -/
structure InstallationReport where
  total : Nat
  succeeded : Nat
  failed : List String
deriving DecidableEq, Repr

/-- The report of a non-strict batch: `failed` comes from the
collection loop and `succeeded = total - |failed|`. -/
def finalReport (rs : List InstallResult) : InstallationReport :=
  match collectResults false rs with
  | .report failed => ⟨rs.length, rs.length - failed.length, failed⟩
  | .exit _ _ => ⟨rs.length, 0, []⟩

/-! ### Backend resolution and entry-point guards -/

/-- A resolved backend. -/
inductive Backend where
  | bun : Backend
  | npm : Backend
deriving DecidableEq, Repr

/-- The `installBun` subprocess (src/unnamed/part_003, lines 758-765):
`npm install -g bun` with both output streams discarded. -/
structure ExecSpec where
  tool : String
  args : List String
  stdoutDiscarded : Bool
  stderrDiscarded : Bool
deriving DecidableEq, Repr

/-- Embedding of `installBun` (src/unnamed/part_003, lines 758-765). -/
def installBunExec : ExecSpec :=
  ⟨"npm", ["install", "-g", "bun"], true, true⟩

/-- Outcome of auto-mode backend resolution. -/
structure AutoResolveOutcome where
  backend : Option Backend
  provisionAttempted : Bool
deriving DecidableEq, Repr

/-- The auto-detect branch of `installDependencies`
(src/unnamed/part_003, lines 642-660): use bun when on the path;
otherwise attempt `installBun` once; on success use bun, on failure
fall back to npm; when npm is also absent the function returns before
launching any task. -/
def autoResolveBackend (bunOnPath npmOnPath provisionSucceeds : Bool) :
    AutoResolveOutcome :=
  if bunOnPath = true then ⟨some .bun, false⟩
  else if provisionSucceeds = true then ⟨some .bun, true⟩
  else if npmOnPath = true then ⟨some .npm, true⟩
  else ⟨none, true⟩

/-- The tasks that `installDependencies` launches in auto mode: none at
all when no backend resolves. -/
def autoModeTasks (bunOnPath npmOnPath provisionSucceeds : Bool)
    (deps devDeps : List String) : List (String × Bool × Cmd) :=
  match (autoResolveBackend bunOnPath npmOnPath provisionSucceeds).backend with
  | none => []
  | some b => batchTasks (b = Backend.bun) deps devDeps

/-- Environment observed by the ad-hoc entry points. -/
structure CliEnv where
  packageJsonExists : Bool
  bunOnPath : Bool
  npmOnPath : Bool
deriving DecidableEq, Repr

/-- Outcome of an entry-point prologue: an early plain return (no
backend resolved, nothing installed, no process exit), or proceeding to
installation with the chosen backend flag. -/
inductive EntryOutcome where
  | earlyReturn : EntryOutcome
  | proceed (useBun : Bool) : EntryOutcome
deriving DecidableEq, Repr

/-- The prologue of `InstallPackage` (src/unnamed/part_003, lines
106-128): return when package.json is absent, else pick bun when on the
path, else npm, else return. -/
def installPackageEntry (env : CliEnv) : EntryOutcome :=
  if env.packageJsonExists = false then .earlyReturn
  else if env.bunOnPath = true then .proceed true
  else if env.npmOnPath = true then .proceed false
  else .earlyReturn

/-- The prologue of `InstallPackages` (src/unnamed/part_003, lines
154-198): return when package.json is absent, else resolve the backend
according to the forced or auto mode. -/
def installPackagesEntry (env : CliEnv) (mode : String) : EntryOutcome :=
  if env.packageJsonExists = false then .earlyReturn
  else if mode = "b" then
    if env.bunOnPath = true then .proceed true
    else if env.npmOnPath = true then .proceed false
    else .earlyReturn
  else if mode = "n" then
    if env.npmOnPath = true then .proceed false else .earlyReturn
  else
    if env.bunOnPath = true then .proceed true
    else if env.npmOnPath = true then .proceed false
    else .earlyReturn

/-! ## Helper lemmas about the scheduler -/

/-- Updating index `i` (currently holding `y`) to `x` shifts a
`countP` by the difference of the two indicator values. -/
theorem countP_set_balance {α : Type _} (p : α → Bool) (l : List α) (i : Nat) (x y : α)
    (h : l.get? i = some y) :
    (l.set i x).countP p + (if p y then 1 else 0) =
      l.countP p + (if p x then 1 else 0) := by
  induction l generalizing i with
  | nil => simp at h
  | cons a t ih =>
    cases i with
    | zero =>
      simp only [List.get?_cons_zero, Option.some.injEq] at h
      subst h
      simp only [List.set_cons_zero, List.countP_cons]
      omega
    | succ n =>
      simp only [List.get?_cons_succ] at h
      simp only [List.set_cons_succ, List.countP_cons]
      have := ih n h
      omega

/-- Indicator values of the `done` phase. -/
theorem isActive_done (ok : Bool) : isActive (Phase.done ok) = false := rfl

/-- Indicator values of the `done` phase. -/
theorem isRunning_done (ok : Bool) : isRunning (Phase.done ok) = false := rfl

/-- A running task holds a semaphore slot. -/
theorem runningCount_le_permitCount (ps : List Phase) :
    runningCount ps ≤ permitCount ps :=
  List.countP_mono_left (fun a _ h => by cases a <;> simp_all [isRunning, isActive])

/-- In the initial batch state no semaphore slot is held. -/
theorem permitCount_replicate_idle (n : Nat) :
    permitCount (List.replicate n .idle) = 0 := by
  induction n with
  | zero => rfl
  | succ k ih =>
    simp only [permitCount, List.replicate_succ, List.countP_cons] at *
    simp [ih, isActive]

/-- In the initial batch state no subprocess is in flight. -/
theorem runningCount_replicate_idle (n : Nat) :
    runningCount (List.replicate n .idle) = 0 := by
  induction n with
  | zero => rfl
  | succ k ih =>
    simp only [runningCount, List.replicate_succ, List.countP_cons] at *
    simp [ih, isRunning]

/-- Main scheduling invariant: every reachable phase vector respects
the semaphore capacity, and under the npm backend at most one
subprocess is in flight (the `npmMutex` discipline). -/
theorem sched_reachable_invariant {useBun : Bool} {pkgs : List String} {ps : List Phase}
    (h : BatchReachable useBun pkgs ps) :
    permitCount ps ≤ maxConcurrent pkgs.length ∧
      (useBun = false → runningCount ps ≤ 1) := by
  unfold BatchReachable at h
  induction h with
  | refl =>
    refine ⟨?_, fun _ => ?_⟩
    · simp [permitCount_replicate_idle]
    · simp [runningCount_replicate_idle]
  | tail hr hstep ih =>
    rename_i qs cs
    obtain ⟨ihP, ihR⟩ := ih
    cases hstep with
    | acquire i hi hsem =>
      have hP := countP_set_balance isActive qs i .hasSem .idle hi
      have hR := countP_set_balance isRunning qs i .hasSem .idle hi
      simp only [isActive, isRunning, if_true, if_false] at hP hR
      unfold permitCount runningCount at *
      constructor
      · omega
      · intro hb
        have := ihR hb
        omega
    | start i hi hmx =>
      have hP := countP_set_balance isActive qs i .running .hasSem hi
      have hR := countP_set_balance isRunning qs i .running .hasSem hi
      simp only [isActive, isRunning, if_true, if_false] at hP hR
      unfold permitCount runningCount at *
      constructor
      · omega
      · intro hb
        rcases hmx with hmx | hmx
        · rw [hb] at hmx; exact absurd hmx (by simp)
        · omega
    | finish i ok hi =>
      have hP := countP_set_balance isActive qs i (.done ok) .running hi
      have hR := countP_set_balance isRunning qs i (.done ok) .running hi
      simp [isActive, isRunning, isActive_done, isRunning_done] at hP hR
      unfold permitCount runningCount at *
      constructor
      · omega
      · intro hb
        have := ihR hb
        omega

/-! ## Claim theorems -/

/-- C4: for any batch of N packages, every reachable scheduler state
has at most min(4, N) tasks concurrently executing their install, and
at most min(4, N) semaphore permits held; tasks acquire a permit before
running and release it unconditionally when finished (the `finish` step
of `SchedStep` frees the permit for either outcome). -/
theorem scheduler_concurrency_bound (useBun : Bool) (pkgs : List String)
    (ps : List Phase) (h : BatchReachable useBun pkgs ps) :
    runningCount ps ≤ min 4 pkgs.length ∧ permitCount ps ≤ min 4 pkgs.length := by
  have hinv := sched_reachable_invariant h
  have hle := runningCount_le_permitCount ps
  unfold maxConcurrent at hinv
  exact ⟨le_trans hle hinv.1, hinv.1⟩

/-- C4 witness: the bound evaluated on a concrete reachable state of a
one-package batch. -/
theorem scheduler_concurrency_bound_witness :
    runningCount [Phase.running] ≤ min 4 (["left-pad"] : List String).length ∧
      permitCount [Phase.running] ≤ min 4 (["left-pad"] : List String).length := by
  have h1 : SchedStep true 1 [Phase.idle] [Phase.hasSem] :=
    SchedStep.acquire [Phase.idle] 0 rfl (by decide)
  have h2 : SchedStep true 1 [Phase.hasSem] [Phase.running] :=
    SchedStep.start [Phase.hasSem] 0 rfl (Or.inl rfl)
  exact scheduler_concurrency_bound true ["left-pad"] [Phase.running]
    (Relation.ReflTransGen.tail (Relation.ReflTransGen.tail Relation.ReflTransGen.refl h1) h2)

/-- C1 counterexample: with the fast backend selected (useBun = true)
and two tasks both named nquickdev, each task is routed to an npm
invocation by the override, yet a state with both npm subprocesses
simultaneously in flight is reachable, because the `npmMutex` lock is
taken only when `useBun` is false (src/unnamed/part_003, lines
287-290); so two npm-tool tasks of one batch can overlap. -/
theorem npm_overlap_fast_backend_counterexample :
    BatchReachable true ["nquickdev", "nquickdev"] [Phase.running, Phase.running] ∧
      (parallelInstallCmd true "nquickdev").tool = "npm" ∧
      runningCount [Phase.running, Phase.running] = 2 := by
  refine ⟨?_, by decide, by decide⟩
  have h1 : SchedStep true 2 [Phase.idle, Phase.idle] [Phase.hasSem, Phase.idle] :=
    SchedStep.acquire [Phase.idle, Phase.idle] 0 rfl (by decide)
  have h2 : SchedStep true 2 [Phase.hasSem, Phase.idle] [Phase.hasSem, Phase.hasSem] :=
    SchedStep.acquire [Phase.hasSem, Phase.idle] 1 rfl (by decide)
  have h3 : SchedStep true 2 [Phase.hasSem, Phase.hasSem] [Phase.running, Phase.hasSem] :=
    SchedStep.start [Phase.hasSem, Phase.hasSem] 0 rfl (Or.inl rfl)
  have h4 : SchedStep true 2 [Phase.running, Phase.hasSem] [Phase.running, Phase.running] :=
    SchedStep.start [Phase.running, Phase.hasSem] 1 rfl (Or.inl rfl)
  exact Relation.ReflTransGen.tail
    (Relation.ReflTransGen.tail
      (Relation.ReflTransGen.tail
        (Relation.ReflTransGen.tail Relation.ReflTransGen.refl h1) h2) h3) h4

/-- C1 (amended): the npm mutual exclusion holds exactly when the batch
backend is the traditional tool (useBun = false): then no two tasks of
the batch have overlapping subprocess intervals; a task routed to npm
by the nquickdev override while the fast backend is selected acquires
no lock and is not serialized. -/
theorem npm_backend_mutual_exclusion (pkgs : List String) (ps : List Phase)
    (h : BatchReachable false pkgs ps) : runningCount ps ≤ 1 :=
  (sched_reachable_invariant h).2 rfl

/-- C1 witness: the amended mutual exclusion evaluated on a concrete
reachable npm-backend state. -/
theorem npm_backend_mutual_exclusion_witness :
    runningCount [Phase.running] ≤ 1 := by
  have h1 : SchedStep false 1 [Phase.idle] [Phase.hasSem] :=
    SchedStep.acquire [Phase.idle] 0 rfl (by decide)
  have h2 : SchedStep false 1 [Phase.hasSem] [Phase.running] :=
    SchedStep.start [Phase.hasSem] 0 rfl (Or.inr (by decide))
  exact npm_backend_mutual_exclusion ["lodash"] [Phase.running]
    (Relation.ReflTransGen.tail (Relation.ReflTransGen.tail Relation.ReflTransGen.refl h1) h2)

/-- C2 (code evaluation at the failing input): in the batch path a dev
dependency is launched through `installPackageParallel`, which carries
no dev flag, so the batch installs it as `bun add typescript` (fast
backend) or `npm install typescript` (traditional backend) — not
`bun add -d typescript` / `npm install --save-dev typescript` as the
claim states; the dev-flag argv exists only in the
`installSingleDependency` path. -/
theorem batch_devdep_argv_lacks_dev_flag :
    batchTasks true [] ["typescript"] =
      [("typescript", true, ⟨"bun", ["add", "typescript"]⟩)] ∧
    batchTasks false [] ["typescript"] =
      [("typescript", true, ⟨"npm", ["install", "typescript"]⟩)] ∧
    parallelInstallCmd true "typescript" ≠ ⟨"bun", ["add", "-d", "typescript"]⟩ ∧
    parallelInstallCmd false "typescript" ≠ ⟨"npm", ["install", "--save-dev", "typescript"]⟩ ∧
    singleInstallCmd true true "typescript" = ⟨"bun", ["add", "-d", "typescript"]⟩ ∧
    singleInstallCmd false true "typescript" = ⟨"npm", ["install", "--save-dev", "typescript"]⟩ := by
  refine ⟨by decide, by decide, by decide, by decide, by decide, by decide⟩

/-- C6: under the fast backend the package named nquickdev is always
routed to an npm invocation and every other package name to a bun
invocation, in both the batch path (`installPackageParallel`) and the
single path (`installSingleDependency`). -/
theorem nquickdev_override_fast_backend (name : String) (isDev : Bool)
    (h : name ≠ "nquickdev") :
    (parallelInstallCmd true "nquickdev").tool = "npm" ∧
    (singleInstallCmd true isDev "nquickdev").tool = "npm" ∧
    (parallelInstallCmd true name).tool = "bun" ∧
    (singleInstallCmd true isDev name).tool = "bun" := by
  refine ⟨by decide, ?_, ?_, ?_⟩
  · cases isDev <;> decide
  · simp [parallelInstallCmd, h]
  · cases isDev <;> simp [singleInstallCmd, h]

/-- C6 witness: the override evaluated at the package name express. -/
theorem nquickdev_override_fast_backend_witness :
    (parallelInstallCmd true "nquickdev").tool = "npm" ∧
    (singleInstallCmd true true "nquickdev").tool = "npm" ∧
    (parallelInstallCmd true "express").tool = "bun" ∧
    (singleInstallCmd true true "express").tool = "bun" :=
  nquickdev_override_fast_backend "express" true (by decide)

/-- C8: in auto mode with bun absent, the provision attempt
(`npm install -g bun`, both output streams discarded) is always made;
when it fails and npm is present the batch proceeds with the npm
backend (no fatal condition); the batch aborts, launching no task, only
when the provision fails and npm is also absent. -/
theorem auto_mode_backend_fallback (npmOnPath provisionSucceeds : Bool)
    (deps devDeps : List String) :
    (autoResolveBackend false npmOnPath provisionSucceeds).provisionAttempted = true ∧
    autoResolveBackend false true false = ⟨some Backend.npm, true⟩ ∧
    ((autoResolveBackend false npmOnPath provisionSucceeds).backend = none ↔
      (npmOnPath = false ∧ provisionSucceeds = false)) ∧
    autoModeTasks false false false deps devDeps = [] ∧
    installBunExec = ⟨"npm", ["install", "-g", "bun"], true, true⟩ := by
  refine ⟨?_, by decide, ?_, rfl, by decide⟩
  · cases npmOnPath <;> cases provisionSucceeds <;> decide
  · cases npmOnPath <;> cases provisionSucceeds <;> decide

/-- C9: a batch over zero packages launches no task, the collection
loop consumes no result (so it cannot block), and the final report is
total 0, succeeded 0, empty failed list. -/
theorem zero_package_batch_noop (strict useBun : Bool) :
    collectResults strict [] = .report [] ∧
    consumedResults strict [] = 0 ∧
    finalReport [] = ⟨0, 0, []⟩ ∧
    batchTasks useBun [] [] = [] :=
  ⟨rfl, rfl, rfl, rfl⟩

/-- C10: when no package.json exists in the working directory, both
`InstallPackage` and `InstallPackages` return early — for any
availability of bun and npm and any mode — without resolving a backend
or installing anything, and without a fatal process exit. -/
theorem missing_package_json_early_return (bunOnPath npmOnPath : Bool) (mode : String) :
    installPackageEntry ⟨false, bunOnPath, npmOnPath⟩ = .earlyReturn ∧
    installPackagesEntry ⟨false, bunOnPath, npmOnPath⟩ mode = .earlyReturn :=
  ⟨rfl, rfl⟩

/-- The strict collection loop stops at the first failure: with an
initial run of successes, it exits with code 1 naming the first failed
package (with dev tag), after consuming exactly the initial successes
and the failure. -/
theorem collect_strict_exit_aux (f : InstallResult) (post : List InstallResult)
    (hf : f.success = false) :
    ∀ pre : List InstallResult, (∀ r ∈ pre, r.success = true) →
      collectResults true (pre ++ f :: post) =
        .exit 1 (f.packageName ++ devLabel f.isDev) ∧
      consumedResults true (pre ++ f :: post) = pre.length + 1
  | [], _ => by
    simp [collectResults, consumedResults, hf]
  | a :: t, hpre => by
    have ha : a.success = true := hpre a (by simp)
    have ih := collect_strict_exit_aux f post hf t (fun r hr => hpre r (by simp [hr]))
    simp [collectResults, consumedResults, ha, ih.1, ih.2]
    omega

/-- The non-strict collection loop never exits the process. -/
theorem collect_nonstrict_no_exit :
    ∀ rs : List InstallResult, ∀ c p, collectResults false rs ≠ .exit c p
  | [], c, p => by simp [collectResults]
  | r :: rs, c, p => by
    by_cases hr : r.success = true
    · simp only [collectResults, hr, if_true]
      exact collect_nonstrict_no_exit rs c p
    · simp only [collectResults, hr, if_false]
      cases hrec : collectResults false rs with
      | report failed => simp
      | exit c2 p2 => exact absurd hrec (collect_nonstrict_no_exit rs c2 p2)

/-- The non-strict collection loop reports exactly the failed results,
tagged, in observation order. -/
theorem collect_nonstrict_report : ∀ rs : List InstallResult,
    collectResults false rs =
      .report ((rs.filter (fun r => !r.success)).map
        (fun r => r.packageName ++ devLabel r.isDev))
  | [] => rfl
  | r :: rs => by
    have ih := collect_nonstrict_report rs
    by_cases hr : r.success = true
    · simp [collectResults, hr, ih, List.filter_cons]
    · simp only [Bool.not_eq_true] at hr
      simp [collectResults, hr, ih, List.filter_cons]

/-- The non-strict collection loop consumes every result. -/
theorem consumed_nonstrict_all : ∀ rs : List InstallResult,
    consumedResults false rs = rs.length
  | [] => rfl
  | r :: rs => by
    simp [consumedResults, consumed_nonstrict_all rs]
    omega

/-- Successes and failures partition a result list. -/
theorem countP_success_add_fail (rs : List InstallResult) :
    rs.countP (fun r => r.success) + rs.countP (fun r => !r.success) = rs.length := by
  induction rs with
  | nil => rfl
  | cons r rs ih =>
    by_cases hr : r.success = true <;>
      simp [List.countP_cons, hr] <;> omega

/-- C5: in strict mode, the collection loop exits the process with
code 1 as soon as the first failure is observed, printing that package
identity with its dev tag, having consumed only the initial successes
and the failure itself (later results are left unconsumed, in-flight
tasks unawaited); in non-strict mode no failure ever exits the
process. -/
theorem strict_mode_early_exit (pre : List InstallResult) (f : InstallResult)
    (post : List InstallResult) (hpre : ∀ r ∈ pre, r.success = true)
    (hf : f.success = false) :
    collectResults true (pre ++ f :: post) =
      .exit 1 (f.packageName ++ devLabel f.isDev) ∧
    consumedResults true (pre ++ f :: post) = pre.length + 1 ∧
    ∀ rs : List InstallResult, ∀ c p, collectResults false rs ≠ .exit c p := by
  have h := collect_strict_exit_aux f post hf pre hpre
  exact ⟨h.1, h.2, collect_nonstrict_no_exit⟩

/-- C5 witness: the strict exit evaluated on three results observed in
the order B(success), A(failure, dev), C(success). -/
theorem strict_mode_early_exit_witness :
    collectResults true
        ([⟨"B", true, false⟩] ++ (⟨"A", false, true⟩ : InstallResult) ::
          [⟨"C", true, false⟩]) =
      .exit 1 ((InstallResult.mk "A" false true).packageName ++
        devLabel (InstallResult.mk "A" false true).isDev) ∧
    consumedResults true
        ([⟨"B", true, false⟩] ++ (⟨"A", false, true⟩ : InstallResult) ::
          [⟨"C", true, false⟩]) =
      ([(⟨"B", true, false⟩ : InstallResult)]).length + 1 := by
  have h := strict_mode_early_exit [⟨"B", true, false⟩] ⟨"A", false, true⟩
    [⟨"C", true, false⟩] (by decide) (by decide)
  exact ⟨h.1, h.2.1⟩

/-- C7: a non-strict batch over any results consumes exactly N of them;
the report satisfies |failed| + succeeded = N, succeeded equals the
number of successful results, and failed lists exactly the failed
packages, dev-tagged, in observation order. -/
theorem nonstrict_completeness (rs : List InstallResult) :
    collectResults false rs =
      .report ((rs.filter (fun r => !r.success)).map
        (fun r => r.packageName ++ devLabel r.isDev)) ∧
    consumedResults false rs = rs.length ∧
    (finalReport rs).failed.length + (finalReport rs).succeeded = rs.length ∧
    (finalReport rs).succeeded = rs.countP (fun r => r.success) := by
  have hrep := collect_nonstrict_report rs
  have hcons := consumed_nonstrict_all rs
  have hcount := countP_success_add_fail rs
  have hlenfil : (rs.filter (fun r => !r.success)).length =
      rs.countP (fun r => !r.success) :=
    (List.countP_eq_length_filter _ _).symm
  have hle : rs.countP (fun r => !r.success) ≤ rs.length :=
    List.countP_le_length _
  have hfr : finalReport rs =
      ⟨rs.length,
        rs.length - ((rs.filter (fun r => !r.success)).map
          (fun r => r.packageName ++ devLabel r.isDev)).length,
        (rs.filter (fun r => !r.success)).map
          (fun r => r.packageName ++ devLabel r.isDev)⟩ := by
    unfold finalReport
    rw [hrep]
  refine ⟨hrep, hcons, ?_, ?_⟩
  · rw [hfr]
    simp only [List.length_map]
    omega
  · rw [hfr]
    simp only [List.length_map]
    omega

/-- The marker collection loop equals filtering the trimmed non-empty
lines by the marker test and warn exclusion. -/
theorem collectMarkerLines_eq (lines : List String) :
    collectMarkerLines lines =
      ((lines.map goTrimSpace).filter (fun l => decide (l ≠ ""))).filter
        (fun l => lineMatchesMarker l && !lineMentionsWarn l) := by
  induction lines with
  | nil => rfl
  | cons raw rest ih =>
    by_cases h1 : goTrimSpace raw = ""
    · simp [collectMarkerLines, h1, ih, List.filter_cons]
    · by_cases h2 : lineMatchesMarker (goTrimSpace raw) = true
      · by_cases h3 : lineMentionsWarn (goTrimSpace raw) = false
        · simp [collectMarkerLines, h1, h2, h3, ih, List.filter_cons]
        · simp only [Bool.not_eq_false] at h3
          simp [collectMarkerLines, h1, h2, h3, ih, List.filter_cons]
      · simp only [Bool.not_eq_true] at h2
        simp [collectMarkerLines, h1, h2, ih, List.filter_cons]

/-- With no capacity left the fallback loop collects nothing. -/
theorem collectFirstLines_zero (lines : List String) :
    collectFirstLines 0 lines = [] := by
  induction lines with
  | nil => rfl
  | cons raw rest ih => simp [collectFirstLines, ih]

/-- The fallback loop collects the first `k` trimmed non-empty lines. -/
theorem collectFirstLines_eq (lines : List String) (k : Nat) :
    collectFirstLines k lines =
      ((lines.map goTrimSpace).filter (fun l => decide (l ≠ ""))).take k := by
  induction lines generalizing k with
  | nil => simp [collectFirstLines]
  | cons raw rest ih =>
    by_cases h1 : goTrimSpace raw = ""
    · simp [collectFirstLines, h1, ih, List.filter_cons]
    · cases k with
      | zero => simp [collectFirstLines_zero, List.filter_cons, h1]
      | succ k2 => simp [collectFirstLines, h1, ih, List.filter_cons]

/-- The final truncation of the Go code equals an unconditional
five-line take. -/
theorem truncate_five_eq_take (l : List String) :
    (if l.length > 5 then l.take 5 else l) = l.take 5 := by
  by_cases h : l.length > 5
  · simp [h]
  · simp only [h, if_false]
    exact (List.take_of_length_le (by omega)).symm

/-- C3: for failed tasks with non-empty captured stderr, the diagnostic
extracted by the code (`extractErrorLines`) is exactly the claimed
specification value (`specDiagnostic`): every trimmed non-empty line
with a case-sensitive marker whose lowercased form avoids "warn", in
order, else the first 3 trimmed non-empty lines, truncated to 5. -/
theorem diagnostic_extraction_matches_spec (errOutput : String)
    (h : errOutput ≠ "") :
    extractErrorLines errOutput = specDiagnostic errOutput := by
  unfold extractErrorLines specDiagnostic trimmedNonEmpty
  simp only [collectMarkerLines_eq, collectFirstLines_eq]
  set F := ((goSplitNewline errOutput).map goTrimSpace).filter
    (fun l => decide (l ≠ "")) with hF
  set M := F.filter (fun l => lineMatchesMarker l && !lineMentionsWarn l) with hM
  by_cases hempty : M = []
  · rw [hempty]
    rw [if_pos (⟨rfl, h⟩ : ([] : List String).length = 0 ∧ errOutput ≠ "")]
    rw [truncate_five_eq_take]
    rw [if_pos (rfl : ([] : List String) = [])]
  · have hlen : ¬ (M.length = 0 ∧ errOutput ≠ "") := by
      intro hc
      exact hempty (List.length_eq_zero.mp hc.1)
    rw [if_neg hlen, if_neg hempty]
    exact truncate_five_eq_take M

/-- C3 witness: the extraction evaluated on a stderr capture mixing a
WARN line with two ERR! lines. -/
theorem diagnostic_extraction_matches_spec_witness :
    extractErrorLines
        "npm WARN deprecated foo\nnpm ERR! code ENOENT\nnpm ERR! enoent no such file" =
      specDiagnostic
        "npm WARN deprecated foo\nnpm ERR! code ENOENT\nnpm ERR! enoent no such file" :=
  diagnostic_extraction_matches_spec
    "npm WARN deprecated foo\nnpm ERR! code ENOENT\nnpm ERR! enoent no such file"
    (by decide)

end XyPCLI
